import Mathlib

/-!
Verification of the quiz parser / normalizer / renderer pipeline of the
CS7643-Module4 repository.

The JavaScript sources are shallowly embedded as executable Lean functions over
`List Char` (JavaScript strings).  Regular-expression operations are translated
to explicit character scanners; each definition carries a comment naming the
source location it embeds.  JavaScript code that can throw is embedded with
`Except`; `null` results are embedded with `Option`.
-/

namespace Quiz

/-- Characters of a JavaScript string. -/
abbrev Chars := List Char

/-- Characters of a Lean string literal. -/
def strL (s : String) : Chars := s.data

/-- JavaScript `String.prototype.includes` (substring containment). -/
def hasSub (pat : Chars) : Chars → Bool
  | [] => pat.isEmpty
  | c :: cs => pat.isPrefixOf (c :: cs) || hasSub pat cs

/-- JavaScript `String.prototype.indexOf`, as an `Option` instead of `-1`. -/
def idxSub (pat : Chars) : Chars → Option Nat
  | [] => if pat.isEmpty then some 0 else none
  | c :: cs =>
    if pat.isPrefixOf (c :: cs) then some 0
    else (idxSub pat cs).map (· + 1)

/-- JavaScript `String.prototype.trim`. -/
def jsTrim (s : Chars) : Chars :=
  (((s.dropWhile Char.isWhitespace).reverse).dropWhile Char.isWhitespace).reverse

/-- JavaScript `String.prototype.toLowerCase` (ASCII case folding suffices for
the patterns used by the scripts). -/
def lowerC (s : Chars) : Chars := s.map Char.toLower

/-- JavaScript `String.prototype.split` with a single-character separator. -/
def splitCh (sep : Char) : Chars → List Chars
  | [] => [[]]
  | c :: cs =>
    if c = sep then [] :: splitCh sep cs
    else
      match splitCh sep cs with
      | [] => [[c]]
      | t :: ts => (c :: t) :: ts

/-- Fuel-driven worker for `splitSub`. -/
def splitSubGo (sep : Chars) : Nat → Chars → List Chars
  | 0, s => [s]
  | _ + 1, [] => [[]]
  | fuel + 1, c :: cs =>
    if sep.isPrefixOf (c :: cs) then
      [] :: splitSubGo sep fuel ((c :: cs).drop sep.length)
    else
      match splitSubGo sep fuel cs with
      | [] => [[c]]
      | t :: ts => (c :: t) :: ts

/-- JavaScript `String.prototype.split` with a non-empty string separator
(for example `markdown.split('---')` in build.js line 104). -/
def splitSub (sep s : Chars) : List Chars := splitSubGo sep (s.length + 1) s

/-- JavaScript `Array.prototype.join('\n')` over line lists. -/
def joinLines : List Chars → Chars
  | [] => []
  | [l] => l
  | l :: ls => l ++ '\n' :: joinLines ls

/-- Fuel-driven worker for `runReplace`. -/
def replaceAllGo (step : Chars → Option (Chars × Nat)) : Nat → Chars → Chars
  | 0, s => s
  | _ + 1, [] => []
  | fuel + 1, c :: cs =>
    match step (c :: cs) with
    | some (out, k) => out ++ replaceAllGo step fuel ((c :: cs).drop (max k 1))
    | none => c :: replaceAllGo step fuel cs

/-- Global regex replace: `step` attempts a match at the current position and
returns the replacement text together with the number of matched characters;
on failure the scan advances one character, as a JavaScript `g` regex does. -/
def runReplace (step : Chars → Option (Chars × Nat)) (s : Chars) : Chars :=
  replaceAllGo step (s.length + 1) s

/-- Fuel-driven worker for `runScan`. -/
def scanAllGo {α : Type} (step : Chars → Option (α × Nat)) : Nat → Chars → List α
  | 0, _ => []
  | _ + 1, [] => []
  | fuel + 1, c :: cs =>
    match step (c :: cs) with
    | some (a, k) => a :: scanAllGo step fuel ((c :: cs).drop (max k 1))
    | none => scanAllGo step fuel cs

/-- Global regex match (`String.prototype.matchAll` / `.match` with `g`):
collect the results of `step` at successive positions, resuming each scan
after the matched characters. -/
def runScan {α : Type} (step : Chars → Option (α × Nat)) (s : Chars) : List α :=
  scanAllGo step (s.length + 1) s

/-- Membership of the regex word class `\w` (`[A-Za-z0-9_]`). -/
def isWordChar (c : Char) : Bool := c.isAlphanum || c = '_'

/-- Membership of the character class `[^.;,]` used by the factchecker's
proximity patterns is the negation of this test. -/
def isStopPunct (c : Char) : Bool := c = '.' || c = ';' || c = ','

mutual

/-- Tail splitter for `splitRuns`: currently inside a separator run. -/
def splitRunsSkip (p : Char → Bool) : Chars → List Chars
  | [] => [[]]
  | c :: cs => if p c then splitRunsSkip p cs else
      match splitRunsTok p cs with
      | [] => [[c]]
      | t :: ts => (c :: t) :: ts

/-- Tail splitter for `splitRuns`: currently inside a token. -/
def splitRunsTok (p : Char → Bool) : Chars → List Chars
  | [] => [[]]
  | c :: cs => if p c then [] :: splitRunsSkip p cs else
      match splitRunsTok p cs with
      | [] => [[c]]
      | t :: ts => (c :: t) :: ts

end

/-- JavaScript `String.prototype.split` with a regex `/[X]+/` class: maximal
separator runs split the string, producing empty leading/trailing tokens the
way the JavaScript engine does. -/
def splitRuns (p : Char → Bool) : Chars → List Chars
  | [] => [[]]
  | c :: cs => if p c then [] :: splitRunsSkip p cs else
      match splitRunsTok p cs with
      | [] => [[c]]
      | t :: ts => (c :: t) :: ts

/-- Separator class of the split regex `/[,\s]+/`. -/
def isCommaWs (c : Char) : Bool := c = ',' || c.isWhitespace

/-!
Client-side grader, embedded from docs/js/script.js (`checkAnswer`,
lines 40-87).
-/

/-- A rendered `<input>` element as `checkAnswer` sees it: its checked state,
its `data-correct` attribute text, and its `type` attribute. -/
structure DomInput where
  checked : Bool
  dataCorrect : Chars
  itype : Chars
deriving DecidableEq

/-- Grading outcome, identified by the CSS class that `checkAnswer` puts on
the feedback element: `warning` ("Please select an answer before checking."),
`correct`, or `incorrect`. -/
inductive Outcome where
  | noSelection
  | correct
  | incorrect
deriving DecidableEq

/-- Runtime failure of the client script, embedded as an error value:
`checkAnswer` reads `questionEl.querySelector('input').type` (script.js
line 43), which throws a `TypeError` when the query returns `null`. -/
inductive JsError where
  | typeError
deriving DecidableEq

/-- One step of the `options.forEach` loop of script.js lines 48-56: the state
is the pair of the mutable variables `(isCorrect, hasSelection)`. -/
def checkStep (st : Bool × Bool) (o : DomInput) : Bool × Bool :=
  (st.1 && (o.checked == (o.dataCorrect == strL "true")), st.2 || o.checked)

/-- script.js lines 40-87: `checkAnswer` over the question's input elements in
document order.  With no inputs, line 43 dereferences `null` and throws; with
inputs, the forEach loop folds `checkStep` and the feedback is `warning` when
nothing is checked, otherwise `correct`/`incorrect` by exact match of every
checked state against its `data-correct` tag. -/
def checkAnswer (inputs : List DomInput) : Except JsError Outcome :=
  match inputs with
  | [] => .error .typeError
  | _ :: _ =>
    let st := inputs.foldl checkStep (true, false)
    if st.2 = false then .ok .noSelection
    else if st.1 then .ok .correct
    else .ok .incorrect

/-- A control's checked state agrees with its rendered correctness tag. -/
def tagAgrees (o : DomInput) : Bool := o.checked == (o.dataCorrect == strL "true")

/-!
Markdown quiz parser and renderer, embedded from docs/build.js
(`generateQuizHtml`, lines 95-286).
-/

/-- The literal `<details>`. -/
def dtlPat : Chars := strL "<details>"

/-- The literal `<summary>Show Answer</summary>`. -/
def smyPat : Chars := strL "<summary>Show Answer</summary>"

/-- The literal `</details>`. -/
def clsPat : Chars := strL "</details>"

/-- build.js line 167/237/267: the capture of
`/<details>[\s\S]+?<summary>Show Answer<\/summary>([\s\S]+?)<\/details>/`.
The lazy quantifiers with a following literal make the match compositional:
the first `<details>`, then the first summary literal at distance at least one
after it, then the first `</details>` at distance at least one after that; if
any piece is missing no later start position can succeed either, because the
remaining search space only shrinks. -/
def explanationMatch (s : Chars) : Option Chars :=
  match idxSub dtlPat s with
  | none => none
  | some i =>
    let r1 := s.drop (i + dtlPat.length)
    match idxSub smyPat (r1.drop 1) with
    | none => none
    | some j =>
      let r2 := r1.drop (1 + j + smyPat.length)
      match idxSub clsPat (r2.drop 1) with
      | none => none
      | some k => some (r2.take (1 + k))

/-- Attempt of the checkbox regex `- \[([ xX])\] (.+)` at the current
position of a line: six literal characters, then the rest of the line as the
option text, which must be non-empty.  `match[1].toLowerCase() === 'x'` is the
correctness marker test of build.js line 159. -/
def checkboxLineAt : Chars → Option (Bool × Chars)
  | '-' :: ' ' :: '[' :: m :: ']' :: ' ' :: rest =>
    if (m = ' ' || m = 'x' || m = 'X') && !rest.isEmpty then
      some (m = 'x' || m = 'X', rest)
    else none
  | _ => none

/-- First match of the checkbox regex within one line.  Because `.` never
crosses a newline and the greedy `(.+)` always extends to the end of the line,
the global scan of build.js lines 150-162 finds exactly one match per line
that contains the pattern; scanning each line for its first match is
therefore equivalent. -/
def lineCheckbox : Chars → Option (Bool × Chars)
  | [] => none
  | c :: cs =>
    match checkboxLineAt (c :: cs) with
    | some r => some r
    | none => lineCheckbox cs

/-- A parsed option: the boolean pushed at build.js lines 157-161 (or 246-249)
together with its trimmed text. -/
structure BOption where
  isCorrect : Bool
  text : Chars
deriving DecidableEq

/-- The checkbox-style options of a section, one per matching line, in
document order (build.js lines 150-162). -/
def cbLineOpts (lines : List Chars) : List BOption :=
  lines.filterMap fun l => (lineCheckbox l).map fun r => ⟨r.1, jsTrim r.2⟩

/-- build.js line 176: first match of `/Correct Answer:[ ]*([^,\n]+)/`. -/
def caSingleMatch : Chars → Option Chars
  | [] => none
  | c :: cs =>
    if (strL "Correct Answer:").isPrefixOf (c :: cs) then
      let r := ((c :: cs).drop 15).dropWhile (· = ' ')
      let cap := r.takeWhile fun ch => ch != ',' && ch != '\n'
      if cap.isEmpty then caSingleMatch cs else some cap
    else caSingleMatch cs

/-- build.js line 189: one match of `/✅([^,]+)/g` at the current position. -/
def checkMarkAt : Chars → Option (Chars × Nat)
  | '✅' :: rest =>
    let cap := rest.takeWhile (· != ',')
    if cap.isEmpty then none else some (cap, 1 + cap.length)
  | _ => none

/-- build.js line 194: first match of `/Correct Answers:[ ]*(.*?)(?:\n|$)/`;
the lazy capture runs to the first newline or the end of the string. -/
def caListMatch : Chars → Option Chars
  | [] => none
  | c :: cs =>
    if (strL "Correct Answers:").isPrefixOf (c :: cs) then
      some ((((c :: cs).drop 16).dropWhile (· = ' ')).takeWhile (· != '\n'))
    else caListMatch cs

/-- build.js line 203: one match of `/\*\*([^*]+)\*\*/g` at the current
position, returning the captured body. -/
def boldClassAt : Chars → Option (Chars × Nat)
  | '*' :: '*' :: rest =>
    let cap := rest.takeWhile (· != '*')
    if !cap.isEmpty && (strL "**").isPrefixOf (rest.drop cap.length) then
      some (cap, 4 + cap.length)
    else none
  | _ => none

/-- build.js lines 166-208: the `correctAnswers` heuristics of the
plain-bullet fallback path, mirroring the successive mutations of the
JavaScript array. -/
def plainCorrectAnswers (sec : Chars) : List Chars :=
  match explanationMatch sec with
  | none => []
  | some expl =>
    let a1 : List Chars :=
      if hasSub (strL "Correct Answer:") expl then
        match caSingleMatch expl with
        | some m => [jsTrim m]
        | none =>
          (if hasSub (strL "True") expl then [strL "True"] else []) ++
          (if hasSub (strL "False") expl then [strL "False"] else [])
      else []
    let a2 : List Chars :=
      if hasSub (strL "Correct Answers:") expl then
        let marks := runScan checkMarkAt expl
        if !marks.isEmpty then marks.map jsTrim
        else
          match caListMatch expl with
          | some cap => if !cap.isEmpty then (splitCh ',' cap).map jsTrim else a1
          | none => a1
      else a1
    if a2.isEmpty then
      let bolds := runScan boldClassAt expl
      if !bolds.isEmpty then bolds.map jsTrim else a2
    else a2

/-- build.js lines 230-231: `toLowerCase().replace(/[^a-z0-9]/g, '')`. -/
def normAlnum (t : Chars) : Chars :=
  (lowerC t).filter fun c => decide ('a' ≤ c ∧ c ≤ 'z') || decide ('0' ≤ c ∧ c ≤ '9')

/-- build.js lines 225-244: correctness of a plain-bullet option, by exact or
normalized-inclusion match against the heuristic answers, with the
multi-select checkmark re-check. -/
def plainIsCorrect (sec : Chars) (isMS : Bool) (answers : List Chars)
    (optText : Chars) : Bool :=
  let isC := answers.any fun ans =>
    optText == ans ||
      (let no := normAlnum optText
       let na := normAlnum ans
       hasSub na no || hasSub no na)
  if !isC && isMS then
    match explanationMatch sec with
    | some expl => hasSub ('✅' :: ' ' :: optText) expl || hasSub ('✅' :: optText) expl
    | none => isC
  else isC

/-- build.js lines 146-254: option extraction.  The checkbox regex is applied
to the whole section text; only when it finds nothing does the plain-bullet
fallback run, gated on `section.indexOf('\n- ') > 0` and
`section.indexOf('<details>') > optionsStart`. -/
def extractOptions (sec : Chars) (isMS : Bool) : List BOption :=
  let cbs := cbLineOpts (splitCh '\n' sec)
  if !cbs.isEmpty then cbs
  else
    let answers := plainCorrectAnswers sec
    match idxSub (strL "\n- ") sec, idxSub dtlPat sec with
    | some i, some j =>
      if 0 < i ∧ i < j then
        let optSec := jsTrim ((sec.drop i).take (j - i))
        (splitCh '\n' optSec).filterMap fun line =>
          let t := jsTrim line
          if (strL "- ").isPrefixOf t then
            let optText := jsTrim (t.drop 2)
            if !optText.isEmpty then
              some ⟨plainIsCorrect sec isMS answers optText, optText⟩
            else none
          else none
      else []
    | _, _ => []

/-- The `(?:\r?\n|$)` tail of the question-title regex at the current
position, returning the consumed characters. -/
def breakHere : Chars → Option Chars
  | [] => some []
  | '\n' :: _ => some ['\n']
  | '\r' :: '\n' :: _ => some ['\r', '\n']
  | _ => none

/-- The lazy `(.+?)(?:\r?\n|$)` tail of the question-title regex: at least one
non-newline character, stopping at the earliest line break or end. -/
def titleTake : Chars → Option (Chars × Chars)
  | [] => none
  | c :: cs =>
    if c = '\n' then none
    else
      match breakHere cs with
      | some brk => some ([c], brk)
      | none => (titleTake cs).map fun r => (c :: r.1, r.2)

/-- build.js line 112: first match of `/### (.+?)(?:\r?\n|$)/`, returning the
whole matched text `match[0]` (line break included when one is consumed) and
the captured question title `match[1]`. -/
def sectionTitleMatch : Chars → Option (Chars × Chars)
  | [] => none
  | c :: cs =>
    if (strL "### ").isPrefixOf (c :: cs) then
      match titleTake ((c :: cs).drop 4) with
      | some (t, brk) => some (strL "### " ++ t ++ brk, t)
      | none => sectionTitleMatch cs
    else sectionTitleMatch cs

/-- build.js lines 126-133: the `startLine`/`endLine` loop over the section's
lines, updating `startLine` at every line containing `match[0]` and breaking
at the first subsequent line whose trimmed text starts with `- [`. -/
def qtLoop (m0 : Chars) : List Chars → Nat → Nat → Nat × Nat
  | [], _, st => (st, 0)
  | l :: ls, i, st =>
    if hasSub m0 l then qtLoop m0 ls (i + 1) (i + 1)
    else if st != 0 && (strL "- [").isPrefixOf (jsTrim l) then (st, i)
    else qtLoop m0 ls (i + 1) st

/-- build.js lines 120-137: the question text between the title line and the
first option marker (empty unless both line indices were found). -/
def questionTextOf (lines : List Chars) (m0 : Chars) : Chars :=
  let se := qtLoop m0 lines 0 0
  if se.1 != 0 && decide (se.1 < se.2) then
    jsTrim (joinLines ((lines.drop se.1).take (se.2 - se.1)))
  else []

/-- The lazy capture `(.+?)` before a closing literal: minimal, at least one
character, never across a newline. -/
def lazyCapTo (close : Chars) : Chars → Option Chars
  | [] => none
  | c :: cs =>
    if c = '\n' then none
    else if close.isPrefixOf cs then some [c]
    else (lazyCapTo close cs).map (c :: ·)

/-- build.js line 271: one replacement step of
`.replace(/\*\*(.+?)\*\*/g, '<strong>$1</strong>')`. -/
def boldStrongAt : Chars → Option (Chars × Nat)
  | '*' :: '*' :: rest =>
    (lazyCapTo (strL "**") rest).map fun cap =>
      (strL "<strong>" ++ cap ++ strL "</strong>", 4 + cap.length)
  | _ => none

/-- build.js line 272: one replacement step of
`.replace(/> "(.+?)"/g, '<blockquote>"$1"</blockquote>')`. -/
def blockquoteAt : Chars → Option (Chars × Nat)
  | '>' :: ' ' :: '"' :: rest =>
    (lazyCapTo (strL "\"") rest).map fun cap =>
      (strL "<blockquote>\"" ++ cap ++ strL "\"</blockquote>", 4 + cap.length)
  | _ => none

/-- build.js lines 266-273: the explanation HTML (empty when the details
pattern does not match). -/
def explHtml (sec : Chars) : Chars :=
  match explanationMatch sec with
  | none => []
  | some e => runReplace blockquoteAt (runReplace boldStrongAt (jsTrim e))

/-- Everything build.js computes for one question section: title, input kind,
question text, options, and explanation HTML.  No diagnostic of any kind is
attached; these five fields are the renderer's entire per-question state. -/
structure BQuestion where
  title : Chars
  isMultiSelect : Bool
  text : Chars
  options : List BOption
  explanation : Chars
deriving DecidableEq

/-- build.js lines 110-281 for one section: `null` (here `none`) exactly when
the title regex finds no match, in which case `sections.forEach` skips the
section and continues with the next one. -/
def parseSection (sec : Chars) : Option BQuestion :=
  match sectionTitleMatch sec with
  | none => none
  | some (m0, qt) =>
    let isMS := hasSub (strL "multi-select") (lowerC qt) ||
                hasSub (strL "multiple select") (lowerC qt)
    some { title := qt
           isMultiSelect := isMS
           text := questionTextOf (splitCh '\n' sec) m0
           options := extractOptions sec isMS
           explanation := explHtml sec }

/-- build.js line 100: first match of `/^# (.+)$/m` (the document title);
`none` models the fallback to the source filename, which is supplied by the
file-system collaborator outside the parser. -/
def parseTitle (md : Chars) : Option Chars :=
  ((splitCh '\n' md).find? fun l =>
    (strL "# ").isPrefixOf l && !(l.drop 2).isEmpty).map (·.drop 2)

/-- build.js line 104: `markdown.split('---').map(trim).filter(nonempty)`. -/
def docSections (md : Chars) : List Chars :=
  ((splitSub (strL "---") md).map jsTrim).filter (!·.isEmpty)

/-- The parsed document: title (when found) and the question records of the
sections whose title regex matched. -/
structure BDoc where
  title : Option Chars
  questions : List BQuestion
deriving DecidableEq

/-- build.js lines 95-107 as a function of the raw document string: line 97
returns `null` exactly when the string is falsy, that is empty; otherwise a
document is always produced, with one question per section that has a `### `
title match. -/
def parseQuizDoc (md : Chars) : Option BDoc :=
  if md.isEmpty then none
  else some { title := parseTitle md
              questions := (docSections md).filterMap parseSection }

/-- Decimal rendering of a JavaScript number used in the HTML template. -/
def natChars (n : Nat) : Chars := (Nat.repr n).data

/-- JavaScript boolean-to-string coercion inside a template literal. -/
def boolChars : Bool → Chars
  | true => strL "true"
  | false => strL "false"

/-- build.js lines 257-263: the exact HTML emitted for one option control,
including its `data-correct` attribute. -/
def optionHtml (qIdx oIdx : Nat) (itype : Chars) (o : BOption) : Chars :=
  strL "\n        <div class=\"option\">\n          <input type=\"" ++ itype ++
  strL "\" id=\"q" ++ natChars qIdx ++ strL "-o" ++ natChars oIdx ++
  strL "\" name=\"q" ++ natChars qIdx ++ strL "\" value=\"" ++ natChars oIdx ++
  strL "\" data-correct=\"" ++ boolChars o.isCorrect ++
  strL "\">\n          <label for=\"q" ++ natChars qIdx ++ strL "-o" ++
  natChars oIdx ++ strL "\">" ++ o.text ++ strL "</label>\n        </div>"

/-- The `options.forEach` emission with its running option index. -/
def optionsHtmlGo (qIdx : Nat) (itype : Chars) : Nat → List BOption → Chars
  | _, [] => []
  | i, o :: os => optionHtml qIdx i itype o ++ optionsHtmlGo qIdx itype (i + 1) os

/-- build.js lines 140-144 and 275-281: the exact HTML emitted for one
question block (`index` is the section index of the forEach). -/
def questionHtml (idx : Nat) (q : BQuestion) : Chars :=
  let itype := if q.isMultiSelect then strL "checkbox" else strL "radio"
  strL "\n    <div class=\"question\" data-question-index=\"" ++ natChars idx ++
  strL "\">\n      <h3>" ++ q.title ++ strL "</h3>\n      <p>" ++ q.text ++
  strL "</p>\n      <div class=\"options\">" ++
  optionsHtmlGo idx itype 0 q.options ++
  strL "\n      </div>\n      <div class=\"feedback\"></div>\n      <button class=\"btn btn-check\">Check Answer</button>\n      <button class=\"btn show-answer-btn\">Show Explanation</button>\n      <div class=\"explanation\">" ++
  q.explanation ++ strL "</div>\n    </div>"

/-- The DOM input element produced by the rendered control of an option, as
script.js later sees it: the `data-correct` attribute is the stringified
`option.isCorrect` and nothing is checked initially. -/
def renderInput (checked : Bool) (q : BQuestion) (o : BOption) : DomInput :=
  { checked := checked
    dataCorrect := boolChars o.isCorrect
    itype := if q.isMultiSelect then strL "checkbox" else strL "radio" }

/-!
Correct-answer extraction shared with the repository's own test utilities
(the critical-issues test concatenated into docs/fix_quiz_factchecker.js,
`parseMarkdownForAnswers` and `parseHtmlForDataCorrect`).
-/

/-- Consume the case-sensitive literal of `\*\*Correct Answers?:\*\*` at the
start of the input, returning what follows.  The optional `s` is tried first,
as a greedy `s?` does. -/
def afterCAStar (l : Chars) : Option Chars :=
  if (strL "**Correct Answer").isPrefixOf l then
    let r := l.drop 16
    if (strL "s:**").isPrefixOf r then some (r.drop 4)
    else if (strL ":**").isPrefixOf r then some (r.drop 3)
    else none
  else none

/-- Membership of the character class `[A-Z,\s]`. -/
def caClassChar (c : Char) : Bool :=
  decide ('A' ≤ c ∧ c ≤ 'Z') || c = ',' || c.isWhitespace

/-- `.split(/[,\s]+/)` then `.filter(letter => /^[A-Z]$/.test(letter))`. -/
def letterTokens (run : Chars) : List Char :=
  (splitRuns isCommaWs run).filterMap fun t =>
    match t with
    | [c] => if decide ('A' ≤ c ∧ c ≤ 'Z') then some c else none
    | _ => none

/-- Match of `/^\*\*Correct Answers?:\*\*\s+([A-Z,\s]+)$/` against one whole
line: after the literal the rest of the line must be non-empty, start with
whitespace, consist only of class characters, and contain at least one
character beyond the leading whitespace. -/
def anchoredCALetters (l : Chars) : Option (List Char) :=
  match afterCAStar l with
  | none => none
  | some rest =>
    match rest with
    | c1 :: _ :: _ =>
      if c1.isWhitespace && rest.all caClassChar then some (letterTokens rest)
      else none
    | _ => none

/-- `parseMarkdownForAnswers` (test section of docs/fix_quiz_factchecker.js,
lines 716-726): the correct letters a section's markdown declares, read from
the first line of its answer block that matches the standard format.  The
checkmark fallback branch of that parser is not needed for normalized input
and is not modelled. -/
def mdAnswerLetters (sec : Chars) : List Char :=
  match explanationMatch sec with
  | none => []
  | some expl =>
    match (splitCh '\n' expl).findSome? anchoredCALetters with
    | some ls => ls
    | none => []

/-- The letter of a rendered option label per the `([A-Z])\.\s+(.+)` part of
`parseHtmlForDataCorrect`'s label regex: the first capital letter followed by
a period, whitespace and text. -/
def labelLetterOf : Chars → Option Char
  | [] => none
  | c :: cs =>
    if decide ('A' ≤ c ∧ c ≤ 'Z') then
      match cs with
      | '.' :: r =>
        let ws := r.takeWhile Char.isWhitespace
        let txt := (r.drop ws.length).takeWhile (· != '\n')
        if !ws.isEmpty && !txt.isEmpty then some c else labelLetterOf cs
      | _ => labelLetterOf cs
    else labelLetterOf cs

/-- Re-parsing the rendered correctness tags, as `parseHtmlForDataCorrect` and
the html-mismatch test do: the letters of the rendered options whose
`data-correct` attribute is the string `true`. -/
def renderedCorrectLetters (opts : List BOption) : List Char :=
  opts.filterMap fun o =>
    if boolChars o.isCorrect == strL "true" then labelLetterOf o.text else none

/-!
Answer normalizer, embedded from docs/fix_quiz_factchecker.js (`processFile`,
lines 87-345, and its phrase tables at lines 37-60).
-/

/-- CORRECT_PHRASES of fix_quiz_factchecker.js lines 37-47 (already lowercase,
as the `i`-flag comparisons need). -/
def correctPhrases : List Chars :=
  [strL "is correct", strL "are correct", strL "is true", strL "correctly",
   strL "right answer", strL "right choice", strL "best choice",
   strL "best option", strL "should be selected"]

/-- NEGATION_PHRASES of fix_quiz_factchecker.js lines 50-60. -/
def negationPhrases : List Chars :=
  [strL "not correct", strL "isn't correct", strL "aren't correct",
   strL "isn't true", strL "not true", strL "incorrect", strL "wrong",
   strL "shouldn't be selected", strL "should not be selected"]

/-- The `[^.;,]*(?:phrase|...)` tail of every proximity pattern: from the
current position, one of the phrases must begin before any stop punctuation
is crossed. -/
def gapPhrase (ps : List Chars) : Chars → Bool
  | [] => false
  | c :: cs => ps.any (·.isPrefixOf (c :: cs)) || (!isStopPunct c && gapPhrase ps cs)

/-- Pattern `\(L\)[^.;,]*(?:...)` over the case-folded text. -/
def patParen (l : Char) (ps : List Chars) : Chars → Bool
  | [] => false
  | c :: cs =>
    (['(', l, ')'].isPrefixOf (c :: cs) && gapPhrase ps ((c :: cs).drop 3)) ||
      patParen l ps cs

/-- Scanner for `\sL\)[^.;,]*(?:...)` at positions after the first. -/
def patWsParenGo (l : Char) (ps : List Chars) : Chars → Bool
  | w :: c :: p :: rest =>
    (w.isWhitespace && c = l && p = ')' && gapPhrase ps rest) ||
      patWsParenGo l ps (c :: p :: rest)
  | _ => false

/-- Pattern `(?:^|\s)L\)[^.;,]*(?:...)` over the case-folded text. -/
def patWsParen (l : Char) (ps : List Chars) (s : Chars) : Bool :=
  (match s with
   | c :: p :: rest => c = l && p = ')' && gapPhrase ps rest
   | _ => false) ||
  patWsParenGo l ps s

/-- Pattern `option\s+L[^.;,]*(?:...)` over the case-folded text. -/
def patOptionWord (l : Char) (ps : List Chars) : Chars → Bool
  | [] => false
  | c :: cs =>
    ((strL "option").isPrefixOf (c :: cs) &&
      (let r := (c :: cs).drop 6
       let ws := r.takeWhile Char.isWhitespace
       !ws.isEmpty &&
         (match r.drop ws.length with
          | c2 :: rest => c2 = l && gapPhrase ps rest
          | [] => false))) ||
      patOptionWord l ps cs

/-- Scanner for `\bL\b[^.;,]*(?:...)`, carrying the previous character for
the word-boundary test. -/
def patWordBoundGo (l : Char) (ps : List Chars) (prev : Option Char) : Chars → Bool
  | [] => false
  | c :: cs =>
    (c = l && (match prev with | none => true | some p => !isWordChar p) &&
      (match cs with | [] => true | c2 :: _ => !isWordChar c2) &&
      gapPhrase ps cs) ||
      patWordBoundGo l ps (some c) cs

/-- Pattern `\bL\b[^.;,]*(?:...)` over the case-folded text. -/
def patWordBound (l : Char) (ps : List Chars) (s : Chars) : Bool :=
  patWordBoundGo l ps none s

/-- Pattern `escapeRegExp(text)[^.;,]*(?:...)` over the case-folded text
(the escaping makes the option text a literal). -/
def patContent (txt : Chars) (ps : List Chars) : Chars → Bool
  | [] => false
  | c :: cs =>
    (txt.isPrefixOf (c :: cs) && gapPhrase ps ((c :: cs).drop txt.length)) ||
      patContent txt ps cs

/-- An option as the factchecker's `- \[ \] ([A-Z])\.\s+(.+)` regex yields it:
its letter and trimmed text. -/
structure FCOption where
  letter : Char
  text : Chars
deriving DecidableEq

/-- fix_quiz_factchecker.js lines 181-214: one option is mentioned by one of
the four letter patterns or the option-text pattern, with the given phrase
table; all patterns carry the `i` flag, hence the case folding. -/
def phraseHit (o : FCOption) (ps : List Chars) (explOnly : Chars) : Bool :=
  let s := lowerC explOnly
  let l := o.letter.toLower
  patParen l ps s || patWsParen l ps s || patOptionWord l ps s ||
    patWordBound l ps s || patContent (lowerC o.text) ps s

/-- The option is mentioned as correct (fix_quiz_factchecker.js lines 207-209). -/
def mentionedCorrect (o : FCOption) (explOnly : Chars) : Bool :=
  phraseHit o correctPhrases explOnly

/-- The option is mentioned as incorrect (fix_quiz_factchecker.js lines 212-214). -/
def mentionedIncorrect (o : FCOption) (explOnly : Chars) : Bool :=
  phraseHit o negationPhrases explOnly

/-- Method 1 of the factchecker (lines 181-220): push each option's letter
when it is explicitly mentioned as correct and not contradicted. -/
def method1 (opts : List FCOption) (explOnly : Chars) : List Char :=
  opts.foldl
    (fun acc o =>
      if mentionedCorrect o explOnly && !mentionedIncorrect o explOnly then
        acc ++ [o.letter]
      else acc)
    []

/-- Letters of a parenthesized list, filtered to CONFIG.OPTION_LETTERS
(`A` through `H`, fix_quiz_factchecker.js lines 20 and 226-229). -/
def parenLetters (cap : Chars) : List Char :=
  (splitRuns isCommaWs cap).filterMap fun t =>
    match t with
    | [c] => if decide ('A' ≤ c ∧ c ≤ 'H') then some c else none
    | _ => none

/-- One match of `/\(([A-Z,\s]+)\)/g` at the current position, returning the
whole matched text and its filtered letters. -/
def parenListAt : Chars → Option ((Chars × List Char) × Nat)
  | '(' :: rest =>
    let cap := rest.takeWhile caClassChar
    if !cap.isEmpty &&
        (match rest.drop cap.length with | ')' :: _ => true | _ => false) then
      some ((('(' :: cap ++ [')']), parenLetters cap), cap.length + 2)
    else none
  | _ => none

/-- `getTextSurrounding` of fix_quiz_factchecker.js lines 366-374: a window of
`n` characters around the first occurrence of the matched text. -/
def surroundText (text m0 : Chars) (n : Nat) : Chars :=
  match idxSub m0 text with
  | none => []
  | some i =>
    let start := i - n
    let stop := min text.length (i + m0.length + n)
    (text.drop start).take (stop - start)

/-- Method 2 of the factchecker (lines 223-245): letters of parenthesized
lists whose 50-character surroundings contain a correctness phrase, added
without duplication. -/
def method2 (acc0 : List Char) (explOnly : Chars) : List Char :=
  (runScan parenListAt explOnly).foldl
    (fun acc pr =>
      let sur := surroundText explOnly pr.1 50
      if correctPhrases.any (fun p => hasSub p (lowerC sur)) then
        pr.2.foldl (fun a l => if l ∈ a then a else a ++ [l]) acc
      else acc)
    acc0

/-- Method 3 of the factchecker (lines 248-266): True/False special handling
over the lowercased explanation text. -/
def method3 (qtype : Chars) (acc0 : List Char) (explOnly : Chars) : List Char :=
  if hasSub (strL "true/false") (lowerC qtype) then
    let tl := lowerC explOnly
    let acc1 :=
      if hasSub (strL "true") tl && !negationPhrases.any (fun p => hasSub p tl) then
        (if 'A' ∈ acc0 then acc0 else acc0 ++ ['A'])
      else acc0
    if hasSub (strL "false is correct") tl ||
        hasSub (strL "false option is correct") tl then
      (if 'B' ∈ acc1 then acc1 else acc1 ++ ['B'])
    else acc1
  else acc0

/-- One match of the factchecker's option regex
`- \[ \] ([A-Z])\.\s+(.+)` at the current position (line 143).  The greedy
`\s+`/`(.+)` split is modelled by a maximal whitespace run followed by a
non-empty rest of line; an option line whose text is entirely whitespace
(which JavaScript would keep with empty trimmed text) does not occur in the
corpus and is not matched here. -/
def fcOptionAt : Chars → Option (FCOption × Nat)
  | '-' :: ' ' :: '[' :: ' ' :: ']' :: ' ' :: c :: '.' :: rest =>
    if decide ('A' ≤ c ∧ c ≤ 'Z') then
      let ws := rest.takeWhile Char.isWhitespace
      let txt := (rest.drop ws.length).takeWhile (· != '\n')
      if !ws.isEmpty && !txt.isEmpty then
        some (⟨c, jsTrim txt⟩, 8 + ws.length + txt.length)
      else none
    else none
  | _ => none

/-- All options of a section (fix_quiz_factchecker.js lines 143-147). -/
def fcOptions (sec : Chars) : List FCOption := runScan fcOptionAt sec

/-- ASCII letter of either case. -/
def isAsciiAlpha (c : Char) : Bool :=
  decide ('a' ≤ c ∧ c ≤ 'z') || decide ('A' ≤ c ∧ c ≤ 'Z')

/-- Membership of the class `[A-Z,\s]` under the `i` flag. -/
def caClassCharI (c : Char) : Bool := isAsciiAlpha c || c = ',' || c.isWhitespace

/-- Consume the `i`-flag literal `\*\*Correct Answers?:\*\*` at the start of
already-lowercased input. -/
def afterCAStarLow (l : Chars) : Option Chars :=
  if (strL "**correct answer").isPrefixOf l then
    let r := l.drop 16
    if (strL "s:**").isPrefixOf r then some (r.drop 4)
    else if (strL ":**").isPrefixOf r then some (r.drop 3)
    else none
  else none

/-- Scanner for the first match of
`/\*\*Correct Answers?:\*\*\s*([A-Z,\s]+)/i` over lowercased text. -/
def fcExplicitGo : Chars → Option (List Char)
  | [] => none
  | c :: cs =>
    match afterCAStarLow (c :: cs) with
    | some rest =>
      let run := rest.takeWhile caClassCharI
      if run.isEmpty then fcExplicitGo cs
      else
        some ((splitRuns isCommaWs run).filterMap fun t =>
          match t with
          | [ch] => if isAsciiAlpha ch then some ch.toUpper else none
          | _ => none)
    | none => fcExplicitGo cs

/-- fix_quiz_factchecker.js lines 157-168: the letters of the current
`Correct Answers:` line; `none` makes `processFile` skip the section. -/
def fcExplicitLetters (expl : Chars) : Option (List Char) :=
  fcExplicitGo (lowerC expl)

/-- One match of the case-sensitive literal `/\*\*Correct Answers?:\*\*/g`
at the current position, with its length. -/
def caLitAt (l : Chars) : Option (Unit × Nat) :=
  if (strL "**Correct Answer").isPrefixOf l then
    let r := l.drop 16
    if (strL "s:**").isPrefixOf r then some ((), 20)
    else if (strL ":**").isPrefixOf r then some ((), 19)
    else none
  else none

/-- fix_quiz_factchecker.js line 171: the number of `Correct Answers:` lines. -/
def caLineCount (expl : Chars) : Nat := (runScan caLitAt expl).length

/-- One replacement step of
`.replace(/\*\*Correct Answers?:\*\*\s*[A-Z,\s]+/g, '')` (line 177):
the literal followed by a non-empty run of `[A-Z,\s]` characters, which
(`\s` being in the class) also absorbs the greedy `\s*`. -/
def stripCAAt (l : Chars) : Option (Chars × Nat) :=
  match caLitAt l with
  | none => none
  | some (_, k) =>
    let run := (l.drop k).takeWhile caClassChar
    if run.isEmpty then none else some ([], k + run.length)

/-- The first replacement of fix_quiz_factchecker.js line 177. -/
def stripCAAll (expl : Chars) : Chars := runReplace stripCAAt expl

/-- One removal step of `.replace(/\*\*.+?\*\*/g, '')` (line 178). -/
def boldRemoveAt : Chars → Option (Chars × Nat)
  | '*' :: '*' :: rest =>
    (lazyCapTo (strL "**") rest).map fun cap => ([], 4 + cap.length)
  | _ => none

/-- The second replacement of fix_quiz_factchecker.js line 178. -/
def stripBold (expl : Chars) : Chars := runReplace boldRemoveAt expl

/-- fix_quiz_factchecker.js line 109: match of
`/^### Question (\d+)\s*\(([^)]+)\)/`, returning the trimmed question type. -/
def fcHeader (sec : Chars) : Option Chars :=
  if (strL "### Question ").isPrefixOf sec then
    let r := sec.drop 13
    let ds := r.takeWhile Char.isDigit
    if ds.isEmpty then none
    else
      match (r.drop ds.length).dropWhile Char.isWhitespace with
      | '(' :: rest =>
        let ty := rest.takeWhile (· != ')')
        if !ty.isEmpty &&
            (match rest.drop ty.length with | ')' :: _ => true | _ => false) then
          some (jsTrim ty)
        else none
      | _ => none
  else none

/-- fix_quiz_factchecker.js line 124: `match[0]` of
`/<details>[\s\S]+?<\/details>/`. -/
def detailsSpan (s : Chars) : Option Chars :=
  match idxSub dtlPat s with
  | none => none
  | some i =>
    let r := s.drop i
    match idxSub clsPat ((r.drop dtlPat.length).drop 1) with
    | none => none
    | some k => some (r.take (dtlPat.length + 1 + k + clsPat.length))

/-- fix_quiz_factchecker.js line 135: the capture of
`/<summary>Show Answer<\/summary>([\s\S]+?)<\/details>/`. -/
def summaryCapture (d : Chars) : Option Chars :=
  match idxSub smyPat d with
  | none => none
  | some i =>
    let r := d.drop (i + smyPat.length)
    match idxSub clsPat (r.drop 1) with
    | none => none
    | some k => some (r.take (1 + k))

/-- JavaScript `[...new Set(list)]`: keep the first occurrence of each
element, in insertion order. -/
def setDedup (l : List Char) : List Char :=
  l.foldl (fun acc c => if c ∈ acc then acc else acc ++ [c]) []

/-- Everything the factchecker computes for one analyzable question section,
mirroring the local variables of `processFile` lines 98-344. -/
structure FCResult where
  qtype : Chars
  options : List FCOption
  currentLetters : List Char
  mentionedLetters : List Char
  dupAnswerLines : Bool
  missingLetters : List Char
  extraneousLetters : List Char
  needUpdate : Bool
  newLetters : List Char
  detailsRecorded : Bool
deriving DecidableEq

/-- fix_quiz_factchecker.js lines 170-342: reconciliation of the current
letters with the heuristically mentioned ones.  `newLetters` is
`[...new Set([...current, ...mentioned])].sort()` when an update is needed
and the unchanged current letters otherwise; `detailsRecorded` is the push of
`fixDetails` onto `results.questionDetails`. -/
def reconcile (qtype : Chars) (opts : List FCOption) (current : List Char)
    (explContent : Chars) : FCResult :=
  let dups := 1 < caLineCount explContent
  let explOnly := stripBold (stripCAAll explContent)
  let mentioned := method3 qtype (method2 (method1 opts explOnly) explOnly) explOnly
  let missing :=
    if !mentioned.isEmpty then mentioned.filter (fun l => !decide (l ∈ current)) else []
  let extraneous :=
    if !mentioned.isEmpty then current.filter (fun l => !decide (l ∈ mentioned)) else []
  let needUpd := (!missing.isEmpty || !extraneous.isEmpty) && !mentioned.isEmpty
  { qtype := qtype
    options := opts
    currentLetters := current
    mentionedLetters := mentioned
    dupAnswerLines := dups
    missingLetters := missing
    extraneousLetters := extraneous
    needUpdate := needUpd
    newLetters :=
      if needUpd then List.insertionSort (· ≤ ·) (setDedup (current ++ mentioned))
      else current
    detailsRecorded := needUpd || dups }

/-- The per-section work of `processFile` (fix_quiz_factchecker.js lines
98-344): `none` on every early `return section` (no question header, no
details block, no summary capture, no options, or no current answers line),
otherwise the reconciled result. -/
def analyzeSection (sec : Chars) : Option FCResult :=
  match fcHeader sec with
  | none => none
  | some qtype =>
    match detailsSpan sec with
    | none => none
    | some dc =>
      match summaryCapture dc with
      | none => none
      | some explContent =>
        if (fcOptions sec).isEmpty then none
        else
          match fcExplicitLetters explContent with
          | none => none
          | some current => some (reconcile qtype (fcOptions sec) current explContent)

/-!
Placeholder repair defaults, embedded from the final script concatenated into
docs/fix_answer_discrepancies.js ("Fix for remaining placeholder issues",
lines 851-989 of the file).
-/

/-- Lines 891-893: a section needs the placeholder fix. -/
def phIndicator (sec : Chars) : Bool :=
  hasSub (strL "[Need to manually determine]") sec ||
  hasSub (strL "**Correct Answers:** [") sec ||
  hasSub (strL "**Correct Answers:** ✅") sec

/-- A line matching `/^\*\*Correct Answers?:\*\*.*$/m` (line 901). -/
def phCALine (l : Chars) : Bool := (caLitAt l).isSome

/-- One line of `/^- \[ \] ([A-Z])\.\s+(.+)$/gm` (line 918). -/
def anchOptionLine (l : Chars) : Option (Char × Chars) :=
  match l with
  | '-' :: ' ' :: '[' :: ' ' :: ']' :: ' ' :: c :: '.' :: rest =>
    if decide ('A' ≤ c ∧ c ≤ 'Z') then
      let ws := rest.takeWhile Char.isWhitespace
      let txt := rest.drop ws.length
      if !ws.isEmpty && !txt.isEmpty then some (c, jsTrim txt) else none
    else none
  | _ => none

/-- Lines 932-945: the type-based default letters used when no usable answers
line and no checkmark matches exist.  True/False gets the letter `B`
regardless of any option text; Multiple Choice gets `A`; everything else
(the multi-select case) gets `A`, `B` and `C`, although the adjacent comment
says "use first two options". -/
def phDefault (sec : Chars) : List Char :=
  if hasSub (strL "True/False") sec then ['B']
  else if hasSub (strL "Multiple Choice") sec then ['A']
  else ['A', 'B', 'C']

/-- `Array.prototype.join(', ')` over letters. -/
def joinCommaLetters : List Char → Chars
  | [] => []
  | [c] => [c]
  | c :: cs => c :: ',' :: ' ' :: joinCommaLetters cs

/-- Lines 889-948: the `correctAnswersLine` the placeholder-fix script settles
on for a section, `none` when the fix path does not trigger (no placeholder
indicator, no details match, or fewer than two `Correct Answers:` lines). -/
def placeholderFixLine (sec : Chars) : Option Chars :=
  if phIndicator sec then
    match explanationMatch sec with
    | none => none
    | some expl =>
      let caLines := (splitCh '\n' expl).filter phCALine
      if 1 < caLines.length then
        match caLines.find? (fun l => !hasSub (strL "[") l && !hasSub (strL "✅") l) with
        | some l => some l
        | none =>
          let optionMatches := (splitCh '\n' sec).filterMap anchOptionLine
          let fromMarks := optionMatches.filterMap fun o =>
            if hasSub ('✅' :: ' ' :: o.2) expl || hasSub ('✓' :: ' ' :: o.2) expl then
              some o.1
            else none
          let letters := if fromMarks.isEmpty then phDefault sec else fromMarks
          some (strL "**Correct Answers:** " ++ joinCommaLetters letters)
      else none
  else none

/-!
Whole-page question rendering and auxiliary observations.
-/

/-- The `sections.forEach((section, index) => ...)` emission of build.js:
skipped sections still advance the index. -/
def questionsHtmlGo : Nat → List Chars → Chars
  | _, [] => []
  | i, s :: ss =>
    (match parseSection s with
     | some q => questionHtml i q
     | none => []) ++ questionsHtmlGo (i + 1) ss

/-- All question blocks build.js emits for a document. -/
def questionsHtml (md : Chars) : Chars := questionsHtmlGo 0 (docSections md)

/-- The document has at least one section with a question-title match. -/
def hasQSection (md : Chars) : Bool :=
  (docSections md).any fun s => (sectionTitleMatch s).isSome

/-!
Concrete inputs used by the counterexample, bug-evaluation and witness
theorems below.
-/

/-- A normalized multiple-choice section in the repository's standard format:
unchecked `- [ ]` options and a `**Correct Answers:** A` line. -/
def mcSecS : String := "### Question 1 (Multiple Choice)\nCapital of France?\n\n- [ ] A. Paris\n- [ ] B. London\n\n<details>\n<summary>Show Answer</summary>\n\n**Correct Answers:** A\n\nParis.\n</details>"

/-- A section whose explicit answers line says `A` while phrase correlation
finds `(B) is correct` — the conflicting-sources scenario. -/
def conflictSecS : String := "### Question 1 (Multi-Select)\nPick.\n\n- [ ] A. Paris\n- [ ] B. London\n\n<details>\n<summary>Show Answer</summary>\n\n**Correct Answers:** A\n\n(B) is correct since London fits.\n</details>\n"

/-- The factchecker's result on `conflictSecS`. -/
def conflictRes : FCResult :=
  { qtype := strL "Multi-Select"
    options := [⟨'A', strL "Paris"⟩, ⟨'B', strL "London"⟩]
    currentLetters := ['A']
    mentionedLetters := ['B']
    dupAnswerLines := false
    missingLetters := ['B']
    extraneousLetters := ['A']
    needUpdate := true
    newLetters := ['A', 'B']
    detailsRecorded := true }

/-- A section whose explicit answers line names the letter `Z`, which exists
among no option. -/
def inventSecS : String := "### Question 1 (Multi-Select)\nPick.\n\n- [ ] A. Paris\n- [ ] B. London\n\n<details>\n<summary>Show Answer</summary>\n\n**Correct Answers:** A, Z\n\n(B) is correct since London fits.\n</details>\n"

/-- The factchecker's result on `inventSecS`. -/
def inventRes : FCResult :=
  { qtype := strL "Multi-Select"
    options := [⟨'A', strL "Paris"⟩, ⟨'B', strL "London"⟩]
    currentLetters := ['A', 'Z']
    mentionedLetters := ['B']
    dupAnswerLines := false
    missingLetters := ['B']
    extraneousLetters := ['A', 'Z']
    needUpdate := true
    newLetters := ['A', 'B', 'Z']
    detailsRecorded := true }

/-- A multi-select section with only placeholder `Correct Answers:` lines and
no checkmark signal: every heuristic source is silent. -/
def placeholderSecS : String := "### Question 2 (Multi-Select)\nPick all.\n\n- [ ] A. One\n- [ ] B. Two\n- [ ] C. Three\n- [ ] D. Four\n\n<details>\n<summary>Show Answer</summary>\n\n**Correct Answers:** [Need to manually determine]\n**Correct Answers:** [TBD]\nSee notes.\n</details>"

/-- A document with one malformed question section (header, no option lines)
followed by a well-formed one. -/
def brokenDocS : String := "# Quiz: Sample\n\n### Question 1 (Multiple Choice)\nBroken one, no bullets.\n<details>\n<summary>Show Answer</summary>\n\nNothing here.\n</details>\n\n---\n\n### Question 2 (Multi-Select)\nGood one.\n\n- [ ] A. Yes\n- [ ] B. No\n\n<details>\n<summary>Show Answer</summary>\n\n**Correct Answers:** A\n</details>\n"

/-- The first (malformed) section of `brokenDocS`, as `docSections` trims it. -/
def brokenSecS : String := "# Quiz: Sample\n\n### Question 1 (Multiple Choice)\nBroken one, no bullets.\n<details>\n<summary>Show Answer</summary>\n\nNothing here.\n</details>"

/-- Lines of a multi-select section up to the inside of its details block. -/
def sneakPre : List Chars :=
  [strL "### Question 1 (Multi-Select)", strL "Pick.", strL "",
   strL "- [ ] A. Yes", strL "- [ ] B. No", strL "",
   strL "<details>", strL "<summary>Show Answer</summary>", strL ""]

/-- A checkbox-marker line sitting inside the explanation block. -/
def sneakLine : Chars := strL "- [x] sneaky extra option"

/-- The remaining lines of the details block. -/
def sneakPost : List Chars := [strL "**Correct Answers:** A", strL "</details>"]

set_option maxRecDepth 100000

/-!
Lemmas about the embedded operations.
-/

/-- The forEach fold of `checkAnswer` computes the conjunction of the tag
agreements and the disjunction of the checked states. -/
theorem foldl_checkStep (l : List DomInput) (a b : Bool) :
    l.foldl checkStep (a, b) = (a && l.all tagAgrees, b || l.any (·.checked)) := by
  induction l generalizing a b with
  | nil => simp
  | cons x xs ih => simp [checkStep, ih, tagAgrees, Bool.and_assoc, Bool.or_assoc]

/-- `parseSection` skips a section exactly when its title regex fails. -/
theorem parseSection_eq_none (s : Chars) :
    parseSection s = none ↔ sectionTitleMatch s = none := by
  unfold parseSection
  cases h : sectionTitleMatch s with
  | none => simp
  | some pr => simp

/-- `splitCh` never produces the empty list. -/
theorem splitCh_ne_nil (sep : Char) (l : Chars) : splitCh sep l ≠ [] := by
  induction l with
  | nil => simp [splitCh]
  | cons c cs ih =>
    unfold splitCh
    split
    · simp
    · split <;> simp_all

/-- Splitting a separator-free string yields the single segment. -/
theorem splitCh_no_sep {sep : Char} {l : Chars} (h : sep ∉ l) :
    splitCh sep l = [l] := by
  induction l with
  | nil => rfl
  | cons c cs ih =>
    simp only [List.mem_cons, not_or] at h
    unfold splitCh
    rw [if_neg (fun e => h.1 e.symm), ih h.2]

/-- Splitting distributes over a separator occurrence after a clean chunk. -/
theorem splitCh_append {sep : Char} {a : Chars} (b : Chars) (h : sep ∉ a) :
    splitCh sep (a ++ sep :: b) = a :: splitCh sep b := by
  induction a with
  | nil => simp [splitCh]
  | cons c cs ih =>
    simp only [List.mem_cons, not_or] at h
    simp only [List.cons_append]
    conv_lhs => rw [splitCh]
    rw [if_neg (fun e => h.1 e.symm), ih h.2]

/-- Splitting on newlines inverts joining newline-free lines. -/
theorem splitCh_joinLines : ∀ (xs : List Chars), xs ≠ [] →
    (∀ l ∈ xs, '\n' ∉ l) → splitCh '\n' (joinLines xs) = xs
  | [], hne, _ => absurd rfl hne
  | [x], _, h => by
    have : joinLines [x] = x := rfl
    rw [this, splitCh_no_sep (h x (by simp))]
  | x :: y :: ys, _, h => by
    have hj : joinLines (x :: y :: ys) = x ++ '\n' :: joinLines (y :: ys) := rfl
    rw [hj, splitCh_append _ (h x (by simp)),
      splitCh_joinLines (y :: ys) (by simp) (fun l hl => h l (by simp [hl]))]

/-- The line-based checkbox scan distributes over list concatenation. -/
theorem cbLineOpts_append (a b : List Chars) :
    cbLineOpts (a ++ b) = cbLineOpts a ++ cbLineOpts b := by
  unfold cbLineOpts
  exact List.filterMap_append _ _ _

/-- A push-only fold is a `filterMap`. -/
theorem foldl_push_filterMap {α β : Type} (p : α → Bool) (f : α → β) :
    ∀ (l : List α) (acc : List β),
      l.foldl (fun a x => if p x then a ++ [f x] else a) acc =
        acc ++ l.filterMap (fun x => if p x then some (f x) else none) := by
  intro l
  induction l with
  | nil => intro acc; simp
  | cons x xs ih =>
    intro acc
    by_cases hp : p x = true
    · simp [hp, ih]
    · simp [hp, ih]

/-- The JavaScript set-spread produces duplicate-free lists. -/
theorem setDedup_foldl_nodup :
    ∀ (l acc : List Char), acc.Nodup →
      (l.foldl (fun acc c => if c ∈ acc then acc else acc ++ [c]) acc).Nodup := by
  intro l
  induction l with
  | nil => intro acc h; exact h
  | cons c cs ih =>
    intro acc h
    simp only [List.foldl_cons]
    by_cases hc : c ∈ acc
    · rw [if_pos hc]; exact ih acc h
    · rw [if_neg hc]
      refine ih _ ?_
      refine List.Nodup.append h (List.nodup_singleton c) ?_
      intro x hx hxc
      rw [List.mem_singleton] at hxc
      exact hc (hxc ▸ hx)

/-- `setDedup` produces duplicate-free lists. -/
theorem setDedup_nodup (l : List Char) : (setDedup l).Nodup :=
  setDedup_foldl_nodup l [] (by simp)

/-- When the factchecker decides to update a question, the written letters are
the sorted deduplicated union of the current and the mentioned letters, and
the fix details are recorded. -/
theorem analyze_update_newLetters (sec : Chars) (r : FCResult)
    (h : analyzeSection sec = some r) (hu : r.needUpdate = true) :
    r.newLetters =
      List.insertionSort (· ≤ ·) (setDedup (r.currentLetters ++ r.mentionedLetters)) ∧
    r.detailsRecorded = true := by
  unfold analyzeSection at h
  repeat' split at h
  any_goals exact Option.noConfusion h
  injection h with h
  subst h
  simp only [reconcile] at hu ⊢
  rw [hu]
  simp

/-!
Claim theorems.
-/

/-- Claim C2: for every question and every assignment of checked states to
its controls, the check action reports correct exactly when every control's
checked state equals its correctness tag, except that with no control checked
at all it reports the distinct no-selection state instead of correct or
incorrect. -/
theorem checkAnswer_exact_match (inputs : List DomInput) (h : inputs ≠ []) :
    ∃ r, checkAnswer inputs = Except.ok r ∧
      (r = Outcome.noSelection ↔ inputs.any (·.checked) = false) ∧
      (r = Outcome.correct ↔
        (inputs.any (·.checked) = true ∧ inputs.all tagAgrees = true)) ∧
      (r = Outcome.incorrect ↔
        (inputs.any (·.checked) = true ∧ inputs.all tagAgrees = false)) := by
  cases inputs with
  | nil => exact absurd rfl h
  | cons x xs =>
    have hfold := foldl_checkStep (x :: xs) true false
    by_cases hAny : (x :: xs).any (·.checked) = true
    · by_cases hAll : (x :: xs).all tagAgrees = true
      · refine ⟨Outcome.correct, ?_, ?_, ?_, ?_⟩
        · simp [checkAnswer, hfold, hAny, hAll]
        · simp [hAny]
        · simp [hAny, hAll]
        · simp [hAll]
      · have hAll' : (x :: xs).all tagAgrees = false := by simpa using hAll
        refine ⟨Outcome.incorrect, ?_, ?_, ?_, ?_⟩
        · simp [checkAnswer, hfold, hAny, hAll']
        · simp [hAny]
        · simp [hAll']
        · simp [hAny, hAll']
    · have hAny' : (x :: xs).any (·.checked) = false := by simpa using hAny
      refine ⟨Outcome.noSelection, ?_, ?_, ?_, ?_⟩
      · simp [checkAnswer, hfold, hAny']
      · simp [hAny']
      · simp [hAny']
      · simp [hAny']

/-- Witness for C2, the spec's grading scenario: correct answers A and C,
the user checks A and B, the outcome is incorrect. -/
theorem checkAnswer_exact_match_witness :
    checkAnswer
      [⟨true, strL "true", strL "checkbox"⟩,
       ⟨true, strL "false", strL "checkbox"⟩,
       ⟨false, strL "true", strL "checkbox"⟩] = Except.ok Outcome.incorrect := by
  obtain ⟨r, hok, -, -, hinc⟩ :=
    checkAnswer_exact_match
      [⟨true, strL "true", strL "checkbox"⟩,
       ⟨true, strL "false", strL "checkbox"⟩,
       ⟨false, strL "true", strL "checkbox"⟩] (by decide)
  have hr : r = Outcome.incorrect := hinc.mpr (by decide)
  rw [hr] at hok
  exact hok

/-- Claim C9: on a question element without input controls the check action
is not total: `checkAnswer` dereferences `querySelector('input')` without a
null check, so it fails with an error and reports no grading state. -/
theorem checkAnswer_throws_without_inputs :
    checkAnswer [] = Except.error JsError.typeError ∧
    ∀ r : Outcome, checkAnswer [] ≠ Except.ok r :=
  ⟨rfl, fun _ h => Except.noConfusion h⟩

/-- Claim C5: when the explanation contains both a positive correctness
phrase near a reference to an option and a negation phrase near a reference
to the same option, phrase correlation does not add that option's letter —
the negation vetoes the positive match. -/
theorem negation_vetoes_phrase_match (opts : List FCOption) (explOnly : Chars)
    (o : FCOption) (hmem : o ∈ opts) (hnd : (opts.map (·.letter)).Nodup)
    (hpos : mentionedCorrect o explOnly = true)
    (hneg : mentionedIncorrect o explOnly = true) :
    o.letter ∉ method1 opts explOnly := by
  intro hin
  unfold method1 at hin
  rw [foldl_push_filterMap] at hin
  simp only [List.nil_append] at hin
  obtain ⟨o', ho'mem, ho'⟩ := List.mem_filterMap.mp hin
  by_cases hc :
      (mentionedCorrect o' explOnly && !mentionedIncorrect o' explOnly) = true
  · rw [if_pos hc] at ho'
    injection ho' with he
    have heq : o' = o := List.inj_on_of_nodup_map hnd ho'mem hmem he
    subst heq
    rw [hneg] at hc
    simp at hc
  · rw [if_neg hc] at ho'
    exact Option.noConfusion ho'

/-- Witness for C5: option B with both `(B) is correct` and `(B) is
incorrect` present is not added by phrase correlation. -/
theorem negation_vetoes_phrase_match_witness :
    'B' ∉ method1 [⟨'B', strL "London"⟩]
        (strL "(B) is correct. (B) is incorrect.") ∧
    mentionedCorrect ⟨'B', strL "London"⟩
        (strL "(B) is correct. (B) is incorrect.") = true ∧
    mentionedIncorrect ⟨'B', strL "London"⟩
        (strL "(B) is correct. (B) is incorrect.") = true :=
  ⟨negation_vetoes_phrase_match [⟨'B', strL "London"⟩] _ ⟨'B', strL "London"⟩
      (by decide) (by decide) (by decide) (by decide),
   by decide, by decide⟩

/-- Counterexample to claim C7: a non-empty document without any question
section does not fail — it parses to a document with zero questions, so
failure is not equivalent to the absence of question sections. -/
theorem no_sections_still_parses :
    (parseQuizDoc (strL "Just some text.")).isSome = true ∧
    hasQSection (strL "Just some text.") = false ∧
    ((parseQuizDoc (strL "Just some text.")).map fun d => d.questions.length) =
      some 0 := by
  refine ⟨by decide, by decide, by decide⟩

/-- Amended claim C7: parsing returns the failure value exactly on the empty
(falsy) input string; a non-empty document with no question sections yields a
QuizDocument with zero questions instead of a MalformedDocument error. -/
theorem parse_never_fails_on_nonempty (md : Chars) :
    (parseQuizDoc md = none ↔ md = []) ∧
    (md ≠ [] → hasQSection md = false →
      ∃ d, parseQuizDoc md = some d ∧ d.questions = []) := by
  constructor
  · unfold parseQuizDoc
    cases md with
    | nil => simp
    | cons c cs => simp
  · intro h1 h2
    have hne : md.isEmpty = false := by
      cases md with
      | nil => exact absurd rfl h1
      | cons c cs => rfl
    refine ⟨⟨parseTitle md, (docSections md).filterMap parseSection⟩, ?_, ?_⟩
    · simp [parseQuizDoc, hne]
    · show (docSections md).filterMap parseSection = []
      refine List.filterMap_eq_nil_iff.mpr ?_
      intro s hs
      rw [parseSection_eq_none]
      unfold hasQSection at h2
      have hfalse := List.any_eq_false.mp h2 s hs
      cases hm : sectionTitleMatch s with
      | none => rfl
      | some pr => rw [hm] at hfalse; simp at hfalse

/-- Witness for the amended C7 at a concrete sectionless document. -/
theorem parse_never_fails_on_nonempty_witness :
    ((parseQuizDoc (strL "Just a preamble line.")).map fun d => d.questions) =
      some [] := by
  obtain ⟨d, hd, hq⟩ :=
    (parse_never_fails_on_nonempty (strL "Just a preamble line.")).2
      (by decide) (by decide)
  rw [hd]
  simp only [Option.map_some']
  rw [hq]

/-- Counterexample to claim C8's `incomplete` flag: the malformed section's
question comes back with an empty option list, but nothing in the rendered
output flags it — the entire emitted markup for a question is produced by
`questionHtml` and contains no `incomplete` marker (`BQuestion` carries no
diagnostic field at all, those five fields being everything build.js
computes per question). -/
theorem no_incomplete_flag_emitted :
    ((parseQuizDoc (strL brokenDocS)).map fun d =>
      d.questions.map fun q => q.options.length) = some [0, 2] ∧
    hasSub (strL "incomplete") (questionsHtml (strL brokenDocS)) = false := by
  refine ⟨by decide, by decide⟩

/-- Amended claim C8: parsing a document with a malformed question section
never fails and never aborts the document: every section is parsed
independently, and a section whose title matches but which has no checkbox
option line and no plain-bullet region yields a question with an empty
option list (no `incomplete` flag exists), while all other sections'
questions are still returned. -/
theorem parse_isolates_malformed_section (md : Chars) (h : md ≠ []) :
    ∃ d, parseQuizDoc md = some d ∧
      d.questions = (docSections md).filterMap parseSection ∧
      ∀ s ∈ docSections md, ∀ pr : Chars × Chars, sectionTitleMatch s = some pr →
        cbLineOpts (splitCh '\n' s) = [] → idxSub (strL "\n- ") s = none →
        ∃ q, parseSection s = some q ∧ q.options = [] := by
  have hne : md.isEmpty = false := by
    cases md with
    | nil => exact absurd rfl h
    | cons c cs => rfl
  refine ⟨⟨parseTitle md, (docSections md).filterMap parseSection⟩, ?_, rfl, ?_⟩
  · simp [parseQuizDoc, hne]
  · intro s hs pr hpr hcb hidx
    obtain ⟨m0, qt⟩ := pr
    have hopt : ∀ b, extractOptions s b = [] := by
      intro b
      simp [extractOptions, hcb, hidx]
    refine ⟨⟨qt,
        hasSub (strL "multi-select") (lowerC qt) ||
          hasSub (strL "multiple select") (lowerC qt),
        questionTextOf (splitCh '\n' s) m0,
        extractOptions s
          (hasSub (strL "multi-select") (lowerC qt) ||
            hasSub (strL "multiple select") (lowerC qt)),
        explHtml s⟩, ?_, ?_⟩
    · simp [parseSection, hpr]
    · exact hopt _

/-- Witness for the amended C8: in `brokenDocS` the malformed first section
yields a question with no options and the whole document still parses with
both questions. -/
theorem parse_isolates_malformed_section_witness :
    ((parseSection (strL brokenSecS)).map fun q => q.options) = some [] ∧
    ((parseQuizDoc (strL brokenDocS)).map fun d => d.questions.length) =
      some 2 := by
  obtain ⟨d, hd, hq, hmal⟩ :=
    parse_isolates_malformed_section (strL brokenDocS) (by decide)
  constructor
  · obtain ⟨q, hq1, hq2⟩ :=
      hmal (strL brokenSecS) (by decide)
        (strL "### Question 1 (Multiple Choice)\n",
         strL "Question 1 (Multiple Choice)")
        (by decide) (by decide) (by decide)
    rw [hq1]
    simp only [Option.map_some']
    rw [hq2]
  · rw [hd]
    simp only [Option.map_some']
    rw [hq]
    decide

/-- Claim C10: whenever a section contains at least one checkbox-marker line,
the renderer's option list consists of exactly the checkbox-matching lines of
the whole section text, wherever they occur — a matching line is turned into
a selectable option regardless of its position, in particular inside the
answer/details block. -/
theorem options_scan_entire_section (pre post : List Chars) (line : Chars)
    (r : Bool × Chars) (isMS : Bool)
    (hpre : ∀ l ∈ pre, '\n' ∉ l) (hpost : ∀ l ∈ post, '\n' ∉ l)
    (hline : '\n' ∉ line) (hmatch : lineCheckbox line = some r) :
    extractOptions (joinLines (pre ++ line :: post)) isMS =
      cbLineOpts pre ++ ⟨r.1, jsTrim r.2⟩ :: cbLineOpts post := by
  have hall : ∀ l ∈ pre ++ line :: post, '\n' ∉ l := by
    intro l hl
    rcases List.mem_append.mp hl with h1 | h2
    · exact hpre l h1
    · rcases List.mem_cons.mp h2 with h3 | h4
      · exact h3 ▸ hline
      · exact hpost l h4
  have hsplit := splitCh_joinLines (pre ++ line :: post) (by simp) hall
  have hcb : cbLineOpts (pre ++ line :: post) =
      cbLineOpts pre ++ ⟨r.1, jsTrim r.2⟩ :: cbLineOpts post := by
    rw [cbLineOpts_append]
    congr 1
    simp [cbLineOpts, hmatch]
  simp only [extractOptions, hsplit, hcb]
  simp

/-- Witness for C10: the checkbox-marker line sitting inside the details
block of `sneakPre ++ sneakLine :: sneakPost` is emitted as a third
selectable option, tagged correct by its `[x]` marker. -/
theorem options_scan_entire_section_witness :
    extractOptions (joinLines (sneakPre ++ sneakLine :: sneakPost)) true =
      [⟨false, strL "A. Yes"⟩, ⟨false, strL "B. No"⟩,
       ⟨true, strL "sneaky extra option"⟩] := by
  have h := options_scan_entire_section sneakPre sneakPost sneakLine
    (true, strL "sneaky extra option") true
    (by decide) (by decide) (by decide) (by decide)
  rw [h]
  decide

/-- Claim C1 evaluated at a normalized section: the markdown declares
`correctLetters = {A}`, but the renderer tags every `- [ ]` option with the
correctness value of its checkbox marker only, so both rendered controls
carry `data-correct="false"` and re-parsing the tags yields the empty set
instead of `{A}`.  The repository's own critical-issues test classifies
exactly this as an html-mismatch defect. -/
theorem data_correct_ignores_answer_line :
    mdAnswerLetters (strL mcSecS) = ['A'] ∧
    ((parseSection (strL mcSecS)).map fun q => q.options.map (·.isCorrect)) =
      some [false, false] ∧
    ((parseSection (strL mcSecS)).map fun q =>
      q.options.map fun o => boolChars o.isCorrect) =
      some [strL "false", strL "false"] ∧
    ((parseSection (strL mcSecS)).map fun q => renderedCorrectLetters q.options) =
      some [] ∧
    (['A'] : List Char) ≠ [] := by
  refine ⟨by decide, by decide, by decide, by decide, by decide⟩

/-- Counterexample to claim C3: with the explicit line `A` and phrase
correlation finding `(B) is correct`, the final letters are the union
`A, B`, not the explicit-line value `A` — the explicit line does not win. -/
theorem explicit_line_does_not_win :
    analyzeSection (strL conflictSecS) = some conflictRes ∧
    conflictRes.currentLetters = ['A'] ∧
    conflictRes.mentionedLetters = ['B'] ∧
    conflictRes.newLetters = ['A', 'B'] ∧
    (['A', 'B'] : List Char) ≠ ['A'] := by
  refine ⟨by decide, by decide, by decide, by decide, by decide⟩

/-- Amended claim C3: when checkmark/phrase correlation conflicts with the
explicit answers line, the factchecker writes the sorted deduplicated union
of the explicit-line letters and the correlation letters (the explicit line
never overrides the heuristics), and the conflict is recorded in the fix
details. -/
theorem reconcile_takes_union (sec : Chars) (r : FCResult)
    (h : analyzeSection sec = some r) (hu : r.needUpdate = true) :
    r.newLetters =
      List.insertionSort (· ≤ ·)
        (setDedup (r.currentLetters ++ r.mentionedLetters)) ∧
    r.detailsRecorded = true :=
  analyze_update_newLetters sec r h hu

/-- Witness for the amended C3 at the conflicting-sources section. -/
theorem reconcile_takes_union_witness :
    conflictRes.newLetters =
      List.insertionSort (· ≤ ·)
        (setDedup (conflictRes.currentLetters ++ conflictRes.mentionedLetters)) ∧
    conflictRes.detailsRecorded = true :=
  reconcile_takes_union (strL conflictSecS) conflictRes (by decide) (by decide)

/-- Counterexample to claim C4: the normalizer keeps the letter `Z` from the
explicit answers line although no option `Z` exists, so the normalized
`correctLetters` is not a subset of the question's option letters. -/
theorem newLetters_not_option_subset :
    analyzeSection (strL inventSecS) = some inventRes ∧
    inventRes.newLetters = ['A', 'B', 'Z'] ∧
    inventRes.options.map (·.letter) = ['A', 'B'] ∧
    'Z' ∈ inventRes.newLetters ∧
    'Z' ∉ inventRes.options.map (·.letter) := by
  refine ⟨by decide, by decide, by decide, by decide, by decide⟩

/-- Amended claim C4: whenever the factchecker rewrites a question's answers
line, the emitted letter list is alphabetically sorted and deduplicated; it
is however not restricted to the question's option letters. -/
theorem updated_letters_sorted_nodup (sec : Chars) (r : FCResult)
    (h : analyzeSection sec = some r) (hu : r.needUpdate = true) :
    r.newLetters.Sorted (· ≤ ·) ∧ r.newLetters.Nodup := by
  obtain ⟨h1, -⟩ := analyze_update_newLetters sec r h hu
  rw [h1]
  constructor
  · exact List.sorted_insertionSort _ _
  · exact ((List.perm_insertionSort _ _).nodup_iff).mpr (setDedup_nodup _)

/-- Witness for the amended C4 at the `inventSecS` section. -/
theorem updated_letters_sorted_nodup_witness :
    inventRes.newLetters.Sorted (· ≤ ·) ∧ inventRes.newLetters.Nodup :=
  updated_letters_sorted_nodup (strL inventSecS) inventRes (by decide) (by decide)

/-- Claim C6 evaluated at its failing input: for a Multi-Select question with
no usable answers line and no checkmark signal, the placeholder-fix default
writes `A, B, C` — three letters, not the first lettered option — and emits
no low-confidence flag of any kind (the constructed line is the entire
output for the question). -/
theorem placeholder_default_abc :
    placeholderFixLine (strL placeholderSecS) =
      some (strL "**Correct Answers:** A, B, C") ∧
    hasSub (strL "Multi-Select") (strL placeholderSecS) = true ∧
    phDefault (strL placeholderSecS) = ['A', 'B', 'C'] ∧
    (['A', 'B', 'C'] : List Char) ≠ ['A'] ∧
    hasSub (strL "low") (strL "**Correct Answers:** A, B, C") = false := by
  refine ⟨by decide, by decide, by decide, by decide, by decide⟩

end Quiz
